import Mathlib

/-!
# Verification of the request-resolution and batching layer

Shallow embedding of the core of the `study-be-graph-ql` backend:

* `src/utils/dataLoaders.ts` — the five DataLoader batch functions
  (user-by-id, event-by-id, events-created-by-user, events-attended-by-user,
  attendees-of-event);
* `src/utils/pagination.ts` — `paginateQuery`;
* `src/utils/auth.ts` — `generateToken`, `getUserFromToken`, `requireAuth`.

MongoDB documents are modelled as Lean structures, a database as lists of
documents, and the Mongoose query operations (`find` with `$in` filters,
`countDocuments`) as pure list functions.  Each batch function returns its
result in `Except` (JavaScript exceptions) together with the ordered list of
fetches it issued against the persistence collaborator, so that batching
claims (how many fetches, with which key sets) are statable.
-/

namespace StudyBE

/-- A persisted `User` document.  Only the fields the core reads are kept;
`_id` is the string form of the Mongo ObjectId. -/
structure User where
  _id : String
  name : String
  email : String
  deriving DecidableEq

/-- A persisted `Event` document.  `creator` and `attendees` hold the string
forms of the referenced user ObjectIds. -/
structure Event where
  _id : String
  title : String
  creator : String
  attendees : List String
  deriving DecidableEq

/-- The persistence collaborator's state: the two collections, in their
natural (storage) order. -/
structure DB where
  users : List User
  events : List Event
  deriving DecidableEq

/-- A hexadecimal character (`0-9a-fA-F`). -/
def isHexChar (c : Char) : Bool :=
  c.isDigit || (('a' : Char) ≤ c && c ≤ ('f' : Char)) || (('A' : Char) ≤ c && c ≤ ('F' : Char))

/-- Validity of a Mongo ObjectId string: 24 hexadecimal characters.
`new Types.ObjectId(id)` throws a `BSONError` on anything else. -/
def isValidObjectId (s : String) : Bool :=
  s.length == 24 && s.toList.all isHexChar

/-- `new Types.ObjectId(id)`: returns the id unchanged when well formed,
throws otherwise. -/
def toObjectId (s : String) : Except String String :=
  if isValidObjectId s then .ok s else .error ("input must be a 24 character hex string: " ++ s)

/-- `ids.map(id => new Types.ObjectId(id))`: JavaScript `Array.map` runs left
to right and the first throw aborts the whole expression. -/
def mapToObjectIds : List String → Except String (List String)
  | [] => .ok []
  | k :: ks =>
    match toObjectId k with
    | .error e => .error e
    | .ok o =>
      match mapToObjectIds ks with
      | .error e => .error e
      | .ok os => .ok (o :: os)

/-- `User.find({ _id: { $in: ids } })`: all users whose id is in `ids`,
in collection order. -/
def findUsersByIds (db : DB) (ids : List String) : List User :=
  db.users.filter (fun u => ids.contains u._id)

/-- `Event.find({ _id: { $in: ids } })`. -/
def findEventsByIds (db : DB) (ids : List String) : List Event :=
  db.events.filter (fun e => ids.contains e._id)

/-- `Event.find({ creator: { $in: ids } })`. -/
def findEventsByCreator (db : DB) (ids : List String) : List Event :=
  db.events.filter (fun e => ids.contains e.creator)

/-- `Event.find({ attendees: { $in: ids } })`: events whose attendee array
contains at least one of `ids`. -/
def findEventsByAttendee (db : DB) (ids : List String) : List Event :=
  db.events.filter (fun e => e.attendees.any (fun a => ids.contains a))

/-- One fetch issued against the persistence collaborator, with the id set
it queried. -/
inductive FetchCall where
  | findUsers (ids : List String)
  | findEvents (ids : List String)
  | findEventsCreator (ids : List String)
  | findEventsAttendee (ids : List String)
  deriving DecidableEq

/-- The batch function of `userLoader`: convert the keys to ObjectIds (a
malformed key throws before any fetch), fetch all matching users in one
query, then map each requested id to the first fetched user with that id, or
`null`. -/
def userLoaderBatch (userIds : List String) (db : DB) :
    Except String (List (Option User)) × List FetchCall :=
  match mapToObjectIds userIds with
  | .error e => (.error e, [])
  | .ok objectIds =>
    let users := findUsersByIds db objectIds
    (.ok (userIds.map fun id => users.find? (fun u => u._id == id)),
     [FetchCall.findUsers objectIds])

/-- The batch function of `eventLoader`, symmetric to `userLoaderBatch`. -/
def eventLoaderBatch (eventIds : List String) (db : DB) :
    Except String (List (Option Event)) × List FetchCall :=
  match mapToObjectIds eventIds with
  | .error e => (.error e, [])
  | .ok objectIds =>
    let events := findEventsByIds db objectIds
    (.ok (eventIds.map fun id => events.find? (fun e => e._id == id)),
     [FetchCall.findEvents objectIds])

/-- The batch function of `userEventsLoader`: one fetch of all events whose
creator is among the requested user ids, then group by creator. -/
def userEventsLoaderBatch (userIds : List String) (db : DB) :
    Except String (List (List Event)) × List FetchCall :=
  match mapToObjectIds userIds with
  | .error e => (.error e, [])
  | .ok objectIds =>
    let events := findEventsByCreator db objectIds
    (.ok (userIds.map fun userId => events.filter (fun e => e.creator == userId)),
     [FetchCall.findEventsCreator objectIds])

/-- The batch function of `userAttendingEventsLoader`: one fetch of all
events attended by any requested user, then group by membership. -/
def userAttendingEventsLoaderBatch (userIds : List String) (db : DB) :
    Except String (List (List Event)) × List FetchCall :=
  match mapToObjectIds userIds with
  | .error e => (.error e, [])
  | .ok objectIds =>
    let events := findEventsByAttendee db objectIds
    (.ok (userIds.map fun userId =>
       events.filter (fun e => e.attendees.any (fun a => a == userId))),
     [FetchCall.findEventsAttendee objectIds])

/-- First-occurrence deduplication, the insertion order of a JavaScript
`Set` filled by iterating the list (`dedupFirstAux l seen` skips elements
already in `seen`). -/
def dedupFirstAux : List String → List String → List String
  | [], _ => []
  | x :: xs, seen =>
    if seen.contains x then dedupFirstAux xs seen
    else x :: dedupFirstAux xs (x :: seen)

/-- `Array.from(new Set(...))` over the concatenation order. -/
def dedupFirst (l : List String) : List String :=
  dedupFirstAux l []

/-- The batch function of `eventAttendeesLoader`: fetch the requested
events, build the deduplicated union of their attendee ids, fetch all those
users in one second query, then assemble each event's attendee list in
attendee-id order, dropping ids with no matching user; a missing event
yields `[]`. -/
def eventAttendeesLoaderBatch (eventIds : List String) (db : DB) :
    Except String (List (List User)) × List FetchCall :=
  match mapToObjectIds eventIds with
  | .error e => (.error e, [])
  | .ok objectIds =>
    let events := findEventsByIds db objectIds
    let allAttendeeIds := dedupFirst (events.flatMap (fun e => e.attendees))
    match mapToObjectIds allAttendeeIds with
    | .error e => (.error e, [FetchCall.findEvents objectIds])
    | .ok attendeeObjIds =>
      let attendees := findUsersByIds db attendeeObjIds
      (.ok (eventIds.map fun eventId =>
         match events.find? (fun e => e._id == eventId) with
         | none => []
         | some event =>
           event.attendees.filterMap
             (fun aid => attendees.find? (fun u => u._id == aid))),
       [FetchCall.findEvents objectIds, FetchCall.findUsers attendeeObjIds])

/-! ## Pagination (`src/utils/pagination.ts`) -/

/-- The optional `{page?, limit?}` input of `paginateQuery`. -/
structure PaginationInput where
  page : Option Int
  limit : Option Int
  deriving DecidableEq

/-- The `pageInfo` part of a `Connection`. -/
structure PageInfo where
  hasNextPage : Bool
  hasPreviousPage : Bool
  currentPage : Int
  totalPages : Int
  deriving DecidableEq

/-- The paged result envelope. -/
structure Connection (T : Type) where
  edges : List T
  pageInfo : PageInfo
  totalCount : Nat

/-- `model.countDocuments(filter)`. -/
def countDocuments {T : Type} (docs : List T) (filter : T → Bool) : Nat :=
  (docs.filter filter).length

/-- `paginateQuery(query, model, filter, pagination)`.  `query` is the
caller's already-filtered-and-sorted lazy sequence (a Mongoose `Query`, to
which `skip`/`limit` windowing is applied); `modelDocs` with `filter` stand
for the model's collection over which `countDocuments(filter)` runs.
Division in `Math.ceil(totalCount / validLimit)` is exact rational
division of nonnegative numbers, embedded as the natural ceiling
division `(totalCount + validLimit - 1) / validLimit`. -/
def paginateQuery {T : Type} (query : List T) (modelDocs : List T)
    (filter : T → Bool) (pagination : Option PaginationInput) : Connection T :=
  let page : Int := (pagination.bind (fun p => p.page)).getD 1
  let limit : Int := (pagination.bind (fun p => p.limit)).getD 10
  let validPage : Int := if page > 0 then page else 1
  let validLimit : Int := if limit > 0 then limit else 10
  let skip : Int := (validPage - 1) * validLimit
  let edges := (query.drop skip.toNat).take validLimit.toNat
  let totalCount := countDocuments modelDocs filter
  let totalPages : Int := Int.ofNat ((totalCount + validLimit.toNat - 1) / validLimit.toNat)
  { edges := edges,
    pageInfo :=
      { hasNextPage := decide (validPage < totalPages),
        hasPreviousPage := decide (validPage > 1),
        currentPage := validPage,
        totalPages := totalPages },
    totalCount := totalCount }

/-! ## Auth utilities (`src/utils/auth.ts`) -/

/-- The `{id, email}` claims carried by a token and by `context.user`. -/
structure UserPayload where
  id : String
  email : String
  deriving DecidableEq

/-- Modelled from the spec: a value of the `jsonwebtoken` token space — the
library's `sign` produces a token binding the payload, the signing secret
and an expiry instant; anything else a caller may present is a malformed
token. -/
inductive Token where
  | signed (payload : UserPayload) (secret : String) (exp : Nat)
  | malformed (s : String)
  deriving DecidableEq

/-- `generateToken`: `jwt.sign({id, email}, config.jwt.secret, {expiresIn: '1d'})`,
issued at time `now` (in seconds), expiring one day (86400 s) later. -/
def generateToken (user : UserPayload) (secret : String) (now : Nat) : Token :=
  .signed ⟨user.id, user.email⟩ secret (now + 86400)

/-- Modelled from the spec: `jwt.verify(token, secret)` — throws on a
malformed token, a signature made with a different secret, or an expired
token; otherwise returns the embedded claims. -/
def jwtVerify (t : Token) (secret : String) (now : Nat) : Except String UserPayload :=
  match t with
  | .malformed _ => .error ("jwt malformed")
  | .signed p s exp =>
    if s ≠ secret then .error ("invalid signature")
    else if exp ≤ now then .error ("jwt expired")
    else .ok p

/-- Modelled from the spec: the raw `Authorization` header value handed to
`getUserFromToken` — empty (`''`, `undefined`), or a token with or without
the `"Bearer "` prefix. -/
inductive RawHeader where
  | emptyHeader
  | bearer (t : Token)
  | plain (t : Token)
  deriving DecidableEq

/-- `getUserFromToken`: return `null` on empty input, strip an optional
`"Bearer "` prefix, verify, and catch every verification throw as `null`. -/
def getUserFromToken (header : RawHeader) (secret : String) (now : Nat) :
    Option UserPayload :=
  match header with
  | .emptyHeader => none
  | .bearer t =>
    match jwtVerify t secret now with
    | .ok p => some p
    | .error _ => none
  | .plain t =>
    match jwtVerify t secret now with
    | .ok p => some p
    | .error _ => none

/-- A GraphQL error as thrown by `requireAuth`: message plus the
`extensions.code` value. -/
structure GraphQLError where
  message : String
  code : String
  deriving DecidableEq

/-- The resolver context: the base context `V` extended with the optional
caller identity (`V & \x7b user?: UserPayload \x7d`). -/
structure Context (V : Type) where
  base : V
  user : Option UserPayload

/-- `requireAuth(resolver)`: throw a `GraphQLError` with code
`UNAUTHENTICATED` when the context carries no user, otherwise delegate all
four arguments to the wrapped resolver.  A resolver returns
`Except GraphQLError R`: `.ok` for a result, `.error` for a thrown
failure, both propagated verbatim. -/
def requireAuth {T U V W R : Type}
    (resolver : T → U → Context V → W → Except GraphQLError R) :
    T → U → Context V → W → Except GraphQLError R :=
  fun parent args context info =>
    match context.user with
    | none => .error ⟨"Authentication required", "UNAUTHENTICATED"⟩
    | some _ => resolver parent args context info

/-! ## DataLoader dispatch -/

/-- Modelled from the spec: the `dataloader` library collects every `load`
call issued on one loader instance within one scheduling turn into a single
key list and invokes the registered batch function exactly once with that
list; the fetches of the turn are exactly the fetches of that one batch
call, and a batch-function throw rejects every pending `load` of the turn
(an `.error` result). -/
def runLoaderTurn {α : Type}
    (batchFn : List String → DB → Except String α × List FetchCall)
    (pendingKeys : List String) (db : DB) :
    Except String α × List FetchCall :=
  batchFn pendingKeys db

/-! ## Concrete sample data for witnesses and counterexamples -/

/-- A well-formed ObjectId string. -/
def oidA : String := "aaaaaaaaaaaaaaaaaaaaaaaa"

/-- A second well-formed ObjectId string. -/
def oidB : String := "bbbbbbbbbbbbbbbbbbbbbbbb"

/-- A third well-formed ObjectId string. -/
def oidC : String := "cccccccccccccccccccccccc"

/-- A fourth well-formed ObjectId string. -/
def oidD : String := "dddddddddddddddddddddddd"

/-- A sample user. -/
def sampleUserA : User := ⟨oidA, "Alice", "alice@example.com"⟩

/-- A second sample user. -/
def sampleUserB : User := ⟨oidB, "Bob", "bob@example.com"⟩

/-- A sample event created by `sampleUserA`, attended by both users. -/
def sampleEvent : Event := ⟨oidC, "Party", oidA, [oidB, oidA]⟩

/-- A sample database. -/
def sampleDB : DB := ⟨[sampleUserA, sampleUserB], [sampleEvent]⟩

/-- A sample token payload. -/
def samplePayload : UserPayload := ⟨"1", "a@b.com"⟩

/-- The server secret used in witnesses. -/
def sampleSecret : String := "secret"

/-- A different secret, for the wrong-signature case. -/
def wrongSecret : String := "wrong"

/-- A garbage token string. -/
def garbageString : String := "garbage"

/-- A malformed ObjectId key. -/
def badKey : String := "zz"

/-- A concrete resolver for gate witnesses: always succeeds with `7`. -/
def sampleResolver : Nat → Nat → Context Nat → Nat → Except GraphQLError Nat :=
  fun _ _ _ _ => .ok 7

/-- A context carrying no caller identity. -/
def sampleCtxAnon : Context Nat := ⟨0, none⟩

/-- A context carrying a caller identity. -/
def sampleCtxAuth : Context Nat := ⟨0, some samplePayload⟩

/-! ## General list lemmas -/

lemma contains_iff_mem (l : List String) (a : String) : l.contains a = true ↔ a ∈ l :=
  List.elem_iff

lemma find?_filter_of_imp (l : List α) (p q : α → Bool) (h : ∀ x, p x = true → q x = true) :
    (l.filter q).find? p = l.find? p := by
  induction l with
  | nil => rfl
  | cons a t ih =>
    cases hq : q a with
    | true =>
      rw [List.filter_cons_of_pos hq]
      cases hp : p a with
      | true => rw [List.find?_cons_of_pos _ hp, List.find?_cons_of_pos _ hp]
      | false =>
        rw [List.find?_cons_of_neg _ (by simp [hp]), List.find?_cons_of_neg _ (by simp [hp]), ih]
    | false =>
      have hp : p a = false := by
        cases hpa : p a with
        | true => exact absurd (h a hpa) (by simp [hq])
        | false => rfl
      rw [List.filter_cons_of_neg (by simp [hq]), List.find?_cons_of_neg _ (by simp [hp]), ih]

lemma find?_eq_some_iff_of_nodup (l : List α) (f : α → String)
    (hnd : (l.map f).Nodup) (k : String) (u : α) :
    l.find? (fun x => f x == k) = some u ↔ (u ∈ l ∧ f u = k) := by
  induction l with
  | nil => simp
  | cons a t ih =>
    rw [List.map_cons, List.nodup_cons] at hnd
    obtain ⟨hna, hnt⟩ := hnd
    cases hfa : (f a == k) with
    | true =>
      have hfa' : f a = k := by simpa using hfa
      have hstep : List.find? (fun x => f x == k) (a :: t) = some a := by
        simp [List.find?_cons, hfa]
      rw [hstep]
      constructor
      · rintro h
        have : a = u := by simpa using h
        exact ⟨this ▸ List.mem_cons_self a t, this ▸ hfa'⟩
      · rintro ⟨hmem, hfu⟩
        rcases List.mem_cons.mp hmem with rfl | hmem'
        · rfl
        · have hcontra : f a ∈ List.map f t := by
            rw [hfa', ← hfu]
            exact List.mem_map_of_mem f hmem'
          exact absurd hcontra hna
    | false =>
      have hfa' : f a ≠ k := by simpa using hfa
      have hstep : List.find? (fun x => f x == k) (a :: t) =
          List.find? (fun x => f x == k) t := by
        simp [List.find?_cons, hfa]
      rw [hstep, ih hnt]
      constructor
      · rintro ⟨hmem, hfu⟩
        exact ⟨List.mem_cons_of_mem a hmem, hfu⟩
      · rintro ⟨hmem, hfu⟩
        rcases List.mem_cons.mp hmem with rfl | hmem'
        · exact absurd hfu hfa'
        · exact ⟨hmem', hfu⟩

lemma find?_perm_of_nodup {l l' : List α} (hp : l.Perm l') (f : α → String)
    (hnd : (l.map f).Nodup) (k : String) :
    l.find? (fun x => f x == k) = l'.find? (fun x => f x == k) := by
  have hnd' : (l'.map f).Nodup := ((hp.map f).nodup_iff).mp hnd
  cases h : l.find? (fun x => f x == k) with
  | some u =>
    have := (find?_eq_some_iff_of_nodup l f hnd k u).mp h
    exact ((find?_eq_some_iff_of_nodup l' f hnd' k u).mpr
      ⟨hp.mem_iff.mp this.1, this.2⟩).symm
  | none =>
    rw [List.find?_eq_none] at h
    exact (List.find?_eq_none.mpr (fun x hx => h x (hp.mem_iff.mpr hx))).symm

/-! ## Normalization of the batch functions on well-formed keys -/

lemma mapToObjectIds_ok_of_valid (keys : List String)
    (h : ∀ k ∈ keys, isValidObjectId k = true) :
    mapToObjectIds keys = .ok keys := by
  induction keys with
  | nil => rfl
  | cons k ks ih =>
    have hk : isValidObjectId k = true := h k (List.mem_cons_self k ks)
    have hks := ih (fun x hx => h x (List.mem_cons_of_mem k hx))
    simp [mapToObjectIds, toObjectId, hk, hks]

lemma mapToObjectIds_error_of_invalid (keys : List String)
    (h : ∃ k ∈ keys, isValidObjectId k = false) :
    ∃ e, mapToObjectIds keys = .error e := by
  induction keys with
  | nil => simp at h
  | cons k ks ih =>
    cases hk : isValidObjectId k with
    | false =>
      refine ⟨"input must be a 24 character hex string: " ++ k, ?_⟩
      simp [mapToObjectIds, toObjectId, hk]
    | true =>
      obtain ⟨k', hk', hbad⟩ := h
      rcases List.mem_cons.mp hk' with rfl | hmem
      · rw [hk] at hbad; exact absurd hbad (by simp)
      · obtain ⟨e, he⟩ := ih ⟨k', hmem, hbad⟩
        exact ⟨e, by simp [mapToObjectIds, toObjectId, hk, he]⟩

lemma userLoaderBatch_ok (keys : List String) (db : DB)
    (h : ∀ k ∈ keys, isValidObjectId k = true) :
    userLoaderBatch keys db =
      (.ok (keys.map fun k => db.users.find? (fun u => u._id == k)),
       [FetchCall.findUsers keys]) := by
  rw [userLoaderBatch, mapToObjectIds_ok_of_valid keys h]
  refine Prod.ext ?_ rfl
  simp only
  congr 1
  refine List.map_congr_left (fun k hk => ?_)
  exact find?_filter_of_imp db.users _ _ (fun u hu => by
    simpa [contains_iff_mem] using (by simpa using hu : u._id = k) ▸ hk)

lemma filter_filter_of_imp (l : List α) (p q : α → Bool) (h : ∀ x, p x = true → q x = true) :
    (l.filter q).filter p = l.filter p := by
  rw [List.filter_filter]
  exact List.filter_congr (fun x _ => by
    cases hp : p x with
    | true => simp [h x hp]
    | false => simp)

lemma contains_false_iff (l : List String) (a : String) : l.contains a = false ↔ a ∉ l := by
  constructor
  · intro h hm
    rw [(contains_iff_mem l a).mpr hm] at h
    cases h
  · intro h
    cases hc : l.contains a with
    | false => rfl
    | true => exact absurd ((contains_iff_mem l a).mp hc) h

lemma mem_dedupFirstAux (l : List String) (a : String) :
    ∀ seen, a ∈ dedupFirstAux l seen ↔ (a ∈ l ∧ a ∉ seen) := by
  induction l with
  | nil => intro seen; simp [dedupFirstAux]
  | cons x xs ih =>
    intro seen
    cases hx : seen.contains x with
    | true =>
      have hxs : x ∈ seen := (contains_iff_mem seen x).mp hx
      rw [show dedupFirstAux (x :: xs) seen = dedupFirstAux xs seen from by
        rw [dedupFirstAux, if_pos hx], ih seen]
      constructor
      · rintro ⟨hm, hns⟩
        exact ⟨List.mem_cons_of_mem x hm, hns⟩
      · rintro ⟨hm, hns⟩
        rcases List.mem_cons.mp hm with rfl | hm'
        · exact absurd hxs hns
        · exact ⟨hm', hns⟩
    | false =>
      have hxs : x ∉ seen := (contains_false_iff seen x).mp hx
      rw [show dedupFirstAux (x :: xs) seen = x :: dedupFirstAux xs (x :: seen) from by
        rw [dedupFirstAux, if_neg (by rw [hx]; simp)]]
      rw [List.mem_cons, ih (x :: seen)]
      constructor
      · rintro (rfl | ⟨hm, hns⟩)
        · exact ⟨List.mem_cons_self _ _, hxs⟩
        · exact ⟨List.mem_cons_of_mem x hm,
            fun hs => hns (List.mem_cons_of_mem x hs)⟩
      · rintro ⟨hm, hns⟩
        rcases List.mem_cons.mp hm with rfl | hm'
        · exact Or.inl rfl
        · by_cases hax : a = x
          · exact Or.inl hax
          · refine Or.inr ⟨hm', fun hs => ?_⟩
            rcases List.mem_cons.mp hs with h1 | h2
            · exact hax h1
            · exact hns h2

lemma mem_dedupFirst (l : List String) (a : String) :
    a ∈ dedupFirst l ↔ a ∈ l := by
  rw [dedupFirst, mem_dedupFirstAux l a []]
  simp

lemma nodup_dedupFirstAux (l : List String) : ∀ seen, (dedupFirstAux l seen).Nodup := by
  induction l with
  | nil => intro seen; simp [dedupFirstAux]
  | cons x xs ih =>
    intro seen
    cases hx : seen.contains x with
    | true =>
      rw [show dedupFirstAux (x :: xs) seen = dedupFirstAux xs seen from by
        rw [dedupFirstAux, if_pos hx]]
      exact ih seen
    | false =>
      rw [show dedupFirstAux (x :: xs) seen = x :: dedupFirstAux xs (x :: seen) from by
        rw [dedupFirstAux, if_neg (by rw [hx]; simp)]]
      rw [List.nodup_cons]
      refine ⟨fun hmem => ?_, ih (x :: seen)⟩
      have := (mem_dedupFirstAux xs x (x :: seen)).mp hmem
      exact this.2 (List.mem_cons_self x seen)

lemma nodup_dedupFirst (l : List String) : (dedupFirst l).Nodup :=
  nodup_dedupFirstAux l []

lemma eventLoaderBatch_ok (keys : List String) (db : DB)
    (h : ∀ k ∈ keys, isValidObjectId k = true) :
    eventLoaderBatch keys db =
      (.ok (keys.map fun k => db.events.find? (fun e => e._id == k)),
       [FetchCall.findEvents keys]) := by
  rw [eventLoaderBatch, mapToObjectIds_ok_of_valid keys h]
  refine Prod.ext ?_ rfl
  simp only
  congr 1
  refine List.map_congr_left (fun k hk => ?_)
  exact find?_filter_of_imp db.events _ _ (fun e he => by
    simpa [contains_iff_mem] using (by simpa using he : e._id = k) ▸ hk)

lemma userEventsLoaderBatch_ok (keys : List String) (db : DB)
    (h : ∀ k ∈ keys, isValidObjectId k = true) :
    userEventsLoaderBatch keys db =
      (.ok (keys.map fun k => db.events.filter (fun e => e.creator == k)),
       [FetchCall.findEventsCreator keys]) := by
  rw [userEventsLoaderBatch, mapToObjectIds_ok_of_valid keys h]
  refine Prod.ext ?_ rfl
  simp only
  congr 1
  refine List.map_congr_left (fun k hk => ?_)
  exact filter_filter_of_imp db.events _ _ (fun e he => by
    simpa [contains_iff_mem] using (by simpa using he : e.creator = k) ▸ hk)

lemma userAttendingEventsLoaderBatch_ok (keys : List String) (db : DB)
    (h : ∀ k ∈ keys, isValidObjectId k = true) :
    userAttendingEventsLoaderBatch keys db =
      (.ok (keys.map fun k =>
         db.events.filter (fun e => e.attendees.any (fun a => a == k))),
       [FetchCall.findEventsAttendee keys]) := by
  rw [userAttendingEventsLoaderBatch, mapToObjectIds_ok_of_valid keys h]
  refine Prod.ext ?_ rfl
  simp only
  congr 1
  refine List.map_congr_left (fun k hk => ?_)
  refine filter_filter_of_imp db.events _ _ (fun e he => ?_)
  rw [List.any_eq_true] at he ⊢
  obtain ⟨a, ha, hak⟩ := he
  have hak' : a = k := by simpa using hak
  exact ⟨a, ha, by simpa [contains_iff_mem] using hak' ▸ hk⟩

lemma eventAttendeesLoaderBatch_ok (keys : List String) (db : DB)
    (hkeys : ∀ k ∈ keys, isValidObjectId k = true)
    (hatt : ∀ e ∈ db.events, ∀ a ∈ e.attendees, isValidObjectId a = true) :
    eventAttendeesLoaderBatch keys db =
      (.ok (keys.map fun k =>
         match db.events.find? (fun e => e._id == k) with
         | none => []
         | some event =>
           event.attendees.filterMap
             (fun aid => db.users.find? (fun u => u._id == aid))),
       [FetchCall.findEvents keys,
        FetchCall.findUsers
          (dedupFirst ((findEventsByIds db keys).flatMap (fun e => e.attendees)))]) := by
  have hvalid2 : ∀ a ∈ dedupFirst ((findEventsByIds db keys).flatMap (fun e => e.attendees)),
      isValidObjectId a = true := by
    intro a ha
    rw [mem_dedupFirst] at ha
    obtain ⟨e, he, hae⟩ := List.mem_flatMap.mp ha
    exact hatt e (List.mem_filter.mp he).1 a hae
  rw [eventAttendeesLoaderBatch, mapToObjectIds_ok_of_valid keys hkeys]
  simp only [mapToObjectIds_ok_of_valid _ hvalid2]
  refine Prod.ext ?_ rfl
  simp only
  congr 1
  refine List.map_congr_left (fun k hk => ?_)
  have hfind : (findEventsByIds db keys).find? (fun e => e._id == k) =
      db.events.find? (fun e => e._id == k) :=
    find?_filter_of_imp db.events _ _ (fun e he => by
      simpa [contains_iff_mem] using (by simpa using he : e._id = k) ▸ hk)
  rw [hfind]
  cases hev : db.events.find? (fun e => e._id == k) with
  | none => rfl
  | some event =>
    simp only
    refine List.filterMap_congr (fun aid haid => ?_)
    have hevmem : event ∈ findEventsByIds db keys := by
      have h1 := List.mem_of_find?_eq_some hev
      have h2 : event._id = k := by simpa using List.find?_some hev
      exact List.mem_filter.mpr ⟨h1, by simpa [contains_iff_mem] using h2 ▸ hk⟩
    have haid' : aid ∈ dedupFirst ((findEventsByIds db keys).flatMap (fun e => e.attendees)) := by
      rw [mem_dedupFirst]
      exact List.mem_flatMap.mpr ⟨event, hevmem, haid⟩
    exact find?_filter_of_imp db.users _ _ (fun u hu => by
      simpa [contains_iff_mem] using (by simpa using hu : u._id = aid) ▸ haid')

/-! ## Claim theorems -/

/-- Claim C1. For every list of requested id keys (well-formed ObjectId strings,
against a database with unique `_id`s), the user-by-id and the event-by-id
batch functions succeed (absence of a match never causes a rejection), return
a list of the same length as the key list in which position `i` holds exactly
the entity whose id equals the `i`-th requested key — `none` when no entity
matches — and the output is invariant under any permutation of the fetched
collection, so output order always follows input key order. -/
theorem byId_loaders_match_key_order (keys : List String) (db : DB)
    (hvalid : ∀ k ∈ keys, isValidObjectId k = true)
    (hU : (db.users.map User._id).Nodup)
    (hE : (db.events.map Event._id).Nodup) :
    ∃ (outU : List (Option User)) (outE : List (Option Event))
      (hlU : outU.length = keys.length) (hlE : outE.length = keys.length),
      (userLoaderBatch keys db).1 = .ok outU ∧
      (eventLoaderBatch keys db).1 = .ok outE ∧
      (∀ i : Fin keys.length,
        (∀ u : User, outU.get (Fin.cast hlU.symm i) = some u ↔
          (u ∈ db.users ∧ u._id = keys.get i)) ∧
        (outU.get (Fin.cast hlU.symm i) = none ↔
          ∀ u ∈ db.users, u._id ≠ keys.get i)) ∧
      (∀ i : Fin keys.length,
        (∀ ev : Event, outE.get (Fin.cast hlE.symm i) = some ev ↔
          (ev ∈ db.events ∧ ev._id = keys.get i)) ∧
        (outE.get (Fin.cast hlE.symm i) = none ↔
          ∀ ev ∈ db.events, ev._id ≠ keys.get i)) ∧
      (∀ db2 : DB, db2.users.Perm db.users →
        (userLoaderBatch keys db2).1 = (userLoaderBatch keys db).1) ∧
      (∀ db2 : DB, db2.events.Perm db.events →
        (eventLoaderBatch keys db2).1 = (eventLoaderBatch keys db).1) := by
  refine ⟨keys.map (fun k => db.users.find? (fun u => u._id == k)),
          keys.map (fun k => db.events.find? (fun e => e._id == k)),
          List.length_map _ _, List.length_map _ _, ?_, ?_, ?_, ?_, ?_, ?_⟩
  · rw [userLoaderBatch_ok keys db hvalid]
  · rw [eventLoaderBatch_ok keys db hvalid]
  · intro i
    have hget : (keys.map (fun k => db.users.find? (fun u => u._id == k))).get
        (Fin.cast (List.length_map _ _).symm i) =
        db.users.find? (fun u => u._id == keys.get i) := by
      rw [List.get_eq_getElem, List.getElem_map, List.get_eq_getElem]
      simp [Fin.coe_cast]
    rw [hget]
    constructor
    · intro u
      exact find?_eq_some_iff_of_nodup db.users User._id hU (keys.get i) u
    · rw [List.find?_eq_none]
      constructor
      · intro h u hu
        have := h u hu
        simpa using this
      · intro h u hu
        simpa using h u hu
  · intro i
    have hget : (keys.map (fun k => db.events.find? (fun e => e._id == k))).get
        (Fin.cast (List.length_map _ _).symm i) =
        db.events.find? (fun e => e._id == keys.get i) := by
      rw [List.get_eq_getElem, List.getElem_map, List.get_eq_getElem]
      simp [Fin.coe_cast]
    rw [hget]
    constructor
    · intro ev
      exact find?_eq_some_iff_of_nodup db.events Event._id hE (keys.get i) ev
    · rw [List.find?_eq_none]
      constructor
      · intro h ev hev
        have := h ev hev
        simpa using this
      · intro h ev hev
        simpa using h ev hev
  · intro db2 hperm
    rw [userLoaderBatch_ok keys db2 hvalid, userLoaderBatch_ok keys db hvalid]
    simp only
    congr 1
    refine List.map_congr_left (fun k _ => ?_)
    exact find?_perm_of_nodup hperm User._id
      (((hperm.map User._id).nodup_iff).mpr hU) k
  · intro db2 hperm
    rw [eventLoaderBatch_ok keys db2 hvalid, eventLoaderBatch_ok keys db hvalid]
    simp only
    congr 1
    refine List.map_congr_left (fun k _ => ?_)
    exact find?_perm_of_nodup hperm Event._id
      (((hperm.map Event._id).nodup_iff).mpr hE) k

/-- Witness for C1: concrete keys `[oidA, oidC]` (one present user, one
absent) against `sampleDB`. -/
theorem byId_loaders_match_key_order_witness :
    (∀ k ∈ [oidA, oidC], isValidObjectId k = true) ∧
    (sampleDB.users.map User._id).Nodup ∧
    (sampleDB.events.map Event._id).Nodup ∧
    (∃ (outU : List (Option User)) (outE : List (Option Event))
      (hlU : outU.length = ([oidA, oidC] : List String).length)
      (hlE : outE.length = ([oidA, oidC] : List String).length),
      (userLoaderBatch [oidA, oidC] sampleDB).1 = .ok outU ∧
      (eventLoaderBatch [oidA, oidC] sampleDB).1 = .ok outE ∧
      (∀ i : Fin ([oidA, oidC] : List String).length,
        (∀ u : User, outU.get (Fin.cast hlU.symm i) = some u ↔
          (u ∈ sampleDB.users ∧ u._id = ([oidA, oidC] : List String).get i)) ∧
        (outU.get (Fin.cast hlU.symm i) = none ↔
          ∀ u ∈ sampleDB.users, u._id ≠ ([oidA, oidC] : List String).get i)) ∧
      (∀ i : Fin ([oidA, oidC] : List String).length,
        (∀ ev : Event, outE.get (Fin.cast hlE.symm i) = some ev ↔
          (ev ∈ sampleDB.events ∧ ev._id = ([oidA, oidC] : List String).get i)) ∧
        (outE.get (Fin.cast hlE.symm i) = none ↔
          ∀ ev ∈ sampleDB.events, ev._id ≠ ([oidA, oidC] : List String).get i)) ∧
      (∀ db2 : DB, db2.users.Perm sampleDB.users →
        (userLoaderBatch [oidA, oidC] db2).1 = (userLoaderBatch [oidA, oidC] sampleDB).1) ∧
      (∀ db2 : DB, db2.events.Perm sampleDB.events →
        (eventLoaderBatch [oidA, oidC] db2).1 = (eventLoaderBatch [oidA, oidC] sampleDB).1)) :=
  ⟨by decide, by decide, by decide,
   byId_loaders_match_key_order [oidA, oidC] sampleDB (by decide) (by decide) (by decide)⟩

/-- Claim C2. For every list of requested event ids, the attendees-of-event
batch function performs exactly two fetches — one event fetch for the
requested ids, then one user fetch over the deduplicated union of all
attendee ids of all fetched events — and for each requested event id returns
the attendee users in the order of that event's attendee-id list, silently
dropping attendee ids with no matching user, and `[]` for an event id with
no matching event. -/
theorem eventAttendeesLoader_two_phase (keys : List String) (db : DB)
    (hkeys : ∀ k ∈ keys, isValidObjectId k = true)
    (hatt : ∀ e ∈ db.events, ∀ a ∈ e.attendees, isValidObjectId a = true) :
    ∃ (out : List (List User)) (qids : List String)
      (hl : out.length = keys.length),
      (eventAttendeesLoaderBatch keys db).1 = .ok out ∧
      (eventAttendeesLoaderBatch keys db).2 =
        [FetchCall.findEvents keys, FetchCall.findUsers qids] ∧
      qids.Nodup ∧
      (∀ a : String, a ∈ qids ↔ ∃ e ∈ findEventsByIds db keys, a ∈ e.attendees) ∧
      (∀ i : Fin keys.length,
        (db.events.find? (fun e => e._id == keys.get i) = none →
          out.get (Fin.cast hl.symm i) = []) ∧
        (∀ ev : Event, db.events.find? (fun e => e._id == keys.get i) = some ev →
          out.get (Fin.cast hl.symm i) =
            ev.attendees.filterMap
              (fun aid => db.users.find? (fun u => u._id == aid)))) := by
  refine ⟨keys.map (fun k =>
      match db.events.find? (fun e => e._id == k) with
      | none => []
      | some event =>
        event.attendees.filterMap
          (fun aid => db.users.find? (fun u => u._id == aid))),
    dedupFirst ((findEventsByIds db keys).flatMap (fun e => e.attendees)),
    List.length_map _ _, ?_, ?_, nodup_dedupFirst _, ?_, ?_⟩
  · rw [eventAttendeesLoaderBatch_ok keys db hkeys hatt]
  · rw [eventAttendeesLoaderBatch_ok keys db hkeys hatt]
  · intro a
    rw [mem_dedupFirst]
    exact List.mem_flatMap
  · intro i
    have hget : (keys.map (fun k =>
        match db.events.find? (fun e => e._id == k) with
        | none => []
        | some event =>
          event.attendees.filterMap
            (fun aid => db.users.find? (fun u : User => u._id == aid)))).get
          (Fin.cast (List.length_map _ _).symm i) =
        match db.events.find? (fun e => e._id == keys.get i) with
        | none => []
        | some event =>
          event.attendees.filterMap
            (fun aid => db.users.find? (fun u : User => u._id == aid)) := by
      rw [List.get_eq_getElem, List.getElem_map, List.get_eq_getElem]
      simp [Fin.coe_cast]
    constructor
    · intro hnone
      rw [hget, hnone]
    · intro ev hev
      rw [hget, hev]

/-- Witness for C2: concrete keys `[oidC, oidD]` (one present event, one
absent) against `sampleDB`. -/
theorem eventAttendeesLoader_two_phase_witness :
    (∀ k ∈ [oidC, oidD], isValidObjectId k = true) ∧
    (∀ e ∈ sampleDB.events, ∀ a ∈ e.attendees, isValidObjectId a = true) ∧
    (∃ (out : List (List User)) (qids : List String)
      (hl : out.length = ([oidC, oidD] : List String).length),
      (eventAttendeesLoaderBatch [oidC, oidD] sampleDB).1 = .ok out ∧
      (eventAttendeesLoaderBatch [oidC, oidD] sampleDB).2 =
        [FetchCall.findEvents [oidC, oidD], FetchCall.findUsers qids] ∧
      qids.Nodup ∧
      (∀ a : String, a ∈ qids ↔
        ∃ e ∈ findEventsByIds sampleDB [oidC, oidD], a ∈ e.attendees) ∧
      (∀ i : Fin ([oidC, oidD] : List String).length,
        (sampleDB.events.find? (fun e => e._id == ([oidC, oidD] : List String).get i) = none →
          out.get (Fin.cast hl.symm i) = []) ∧
        (∀ ev : Event,
          sampleDB.events.find? (fun e => e._id == ([oidC, oidD] : List String).get i) = some ev →
          out.get (Fin.cast hl.symm i) =
            ev.attendees.filterMap
              (fun aid => sampleDB.users.find? (fun u => u._id == aid))))) :=
  ⟨by decide, by decide,
   eventAttendeesLoader_two_phase [oidC, oidD] sampleDB (by decide) (by decide)⟩

/-- Claim C3. For every list of requested user ids, the events-created-by-user
batch function returns at each position exactly the fetched events whose
creator equals that requested id (an empty list, never a null, when none
match), and the events-attended-by-user batch function returns at each
position exactly the fetched events whose attendee set contains that id — so
one event may appear under several requested ids, and an absent key yields
an empty list. -/
theorem fanout_loaders_partition (keys : List String) (db : DB)
    (hvalid : ∀ k ∈ keys, isValidObjectId k = true) :
    ∃ (outC : List (List Event)) (outA : List (List Event))
      (hlC : outC.length = keys.length) (hlA : outA.length = keys.length),
      (userEventsLoaderBatch keys db).1 = .ok outC ∧
      (userAttendingEventsLoaderBatch keys db).1 = .ok outA ∧
      (∀ i : Fin keys.length,
        outC.get (Fin.cast hlC.symm i) =
          db.events.filter (fun e => e.creator == keys.get i)) ∧
      (∀ i : Fin keys.length,
        outA.get (Fin.cast hlA.symm i) =
          db.events.filter (fun e => e.attendees.any (fun a => a == keys.get i))) ∧
      (∀ i : Fin keys.length, ∀ ev : Event,
        ev ∈ outC.get (Fin.cast hlC.symm i) ↔
          (ev ∈ db.events ∧ ev.creator = keys.get i)) ∧
      (∀ i : Fin keys.length, ∀ ev : Event,
        ev ∈ outA.get (Fin.cast hlA.symm i) ↔
          (ev ∈ db.events ∧ keys.get i ∈ ev.attendees)) := by
  refine ⟨keys.map (fun k => db.events.filter (fun e => e.creator == k)),
    keys.map (fun k => db.events.filter (fun e => e.attendees.any (fun a => a == k))),
    List.length_map _ _, List.length_map _ _, ?_, ?_, ?_, ?_, ?_, ?_⟩
  · rw [userEventsLoaderBatch_ok keys db hvalid]
  · rw [userAttendingEventsLoaderBatch_ok keys db hvalid]
  · intro i
    rw [List.get_eq_getElem, List.getElem_map, List.get_eq_getElem]
    simp [Fin.coe_cast]
  · intro i
    rw [List.get_eq_getElem, List.getElem_map, List.get_eq_getElem]
    simp [Fin.coe_cast]
  · intro i ev
    rw [List.get_eq_getElem, List.getElem_map, List.get_eq_getElem]
    simp [Fin.coe_cast, List.mem_filter]
  · intro i ev
    rw [List.get_eq_getElem, List.getElem_map, List.get_eq_getElem]
    simp only [Fin.coe_cast, List.mem_filter, List.any_eq_true, beq_iff_eq]
    constructor
    · rintro ⟨hm, a, ha, rfl⟩
      exact ⟨hm, ha⟩
    · rintro ⟨hm, ha⟩
      exact ⟨hm, keys.get i, by simpa [List.get_eq_getElem] using ha, rfl⟩

/-- Witness for C3: concrete keys `[oidA, oidD]` (a creator/attendee id and
an id matching nothing) against `sampleDB`. -/
theorem fanout_loaders_partition_witness :
    (∀ k ∈ [oidA, oidD], isValidObjectId k = true) ∧
    (∃ (outC : List (List Event)) (outA : List (List Event))
      (hlC : outC.length = ([oidA, oidD] : List String).length)
      (hlA : outA.length = ([oidA, oidD] : List String).length),
      (userEventsLoaderBatch [oidA, oidD] sampleDB).1 = .ok outC ∧
      (userAttendingEventsLoaderBatch [oidA, oidD] sampleDB).1 = .ok outA ∧
      (∀ i : Fin ([oidA, oidD] : List String).length,
        outC.get (Fin.cast hlC.symm i) =
          sampleDB.events.filter
            (fun e => e.creator == ([oidA, oidD] : List String).get i)) ∧
      (∀ i : Fin ([oidA, oidD] : List String).length,
        outA.get (Fin.cast hlA.symm i) =
          sampleDB.events.filter
            (fun e => e.attendees.any (fun a => a == ([oidA, oidD] : List String).get i))) ∧
      (∀ i : Fin ([oidA, oidD] : List String).length, ∀ ev : Event,
        ev ∈ outC.get (Fin.cast hlC.symm i) ↔
          (ev ∈ sampleDB.events ∧ ev.creator = ([oidA, oidD] : List String).get i)) ∧
      (∀ i : Fin ([oidA, oidD] : List String).length, ∀ ev : Event,
        ev ∈ outA.get (Fin.cast hlA.symm i) ↔
          (ev ∈ sampleDB.events ∧ ([oidA, oidD] : List String).get i ∈ ev.attendees))) :=
  ⟨by decide, fanout_loaders_partition [oidA, oidD] sampleDB (by decide)⟩

/-- Claim C4, counterexample. The claim "N `load` calls on one loader
instance within one turn issue exactly one fetch" fails for the
attendees-of-event loader: a one-key turn against `sampleDB` issues two
fetches (its two phases), not one. -/
theorem batching_single_fetch_counterexample :
    (runLoaderTurn eventAttendeesLoaderBatch [oidC] sampleDB).2.length ≠ 1 := by
  decide

/-- Claim C4, amended. For every set of distinct well-formed keys loaded on
one loader instance within one scheduling turn, the number of fetches is
independent of the number of `load` calls: the four single-phase loaders
issue exactly one fetch querying the union of the requested keys, and the
two-phase attendees-of-event loader issues exactly two (the event fetch for
the requested keys, then one user fetch). -/
theorem batching_fetch_count_independent_of_n (keys : List String) (db : DB)
    (_hnd : keys.Nodup)
    (hvalid : ∀ k ∈ keys, isValidObjectId k = true)
    (hatt : ∀ e ∈ db.events, ∀ a ∈ e.attendees, isValidObjectId a = true) :
    (runLoaderTurn userLoaderBatch keys db).2 = [FetchCall.findUsers keys] ∧
    (runLoaderTurn eventLoaderBatch keys db).2 = [FetchCall.findEvents keys] ∧
    (runLoaderTurn userEventsLoaderBatch keys db).2 =
      [FetchCall.findEventsCreator keys] ∧
    (runLoaderTurn userAttendingEventsLoaderBatch keys db).2 =
      [FetchCall.findEventsAttendee keys] ∧
    (∃ qids : List String,
      (runLoaderTurn eventAttendeesLoaderBatch keys db).2 =
        [FetchCall.findEvents keys, FetchCall.findUsers qids]) := by
  refine ⟨?_, ?_, ?_, ?_, ?_⟩
  · rw [runLoaderTurn, userLoaderBatch_ok keys db hvalid]
  · rw [runLoaderTurn, eventLoaderBatch_ok keys db hvalid]
  · rw [runLoaderTurn, userEventsLoaderBatch_ok keys db hvalid]
  · rw [runLoaderTurn, userAttendingEventsLoaderBatch_ok keys db hvalid]
  · exact ⟨_, by rw [runLoaderTurn, eventAttendeesLoaderBatch_ok keys db hvalid hatt]⟩

/-- Witness for the amended C4: two distinct keys `[oidA, oidB]` against
`sampleDB`. -/
theorem batching_fetch_count_independent_of_n_witness :
    ([oidA, oidB] : List String).Nodup ∧
    (∀ k ∈ [oidA, oidB], isValidObjectId k = true) ∧
    (∀ e ∈ sampleDB.events, ∀ a ∈ e.attendees, isValidObjectId a = true) ∧
    ((runLoaderTurn userLoaderBatch [oidA, oidB] sampleDB).2 =
      [FetchCall.findUsers [oidA, oidB]] ∧
    (runLoaderTurn eventLoaderBatch [oidA, oidB] sampleDB).2 =
      [FetchCall.findEvents [oidA, oidB]] ∧
    (runLoaderTurn userEventsLoaderBatch [oidA, oidB] sampleDB).2 =
      [FetchCall.findEventsCreator [oidA, oidB]] ∧
    (runLoaderTurn userAttendingEventsLoaderBatch [oidA, oidB] sampleDB).2 =
      [FetchCall.findEventsAttendee [oidA, oidB]] ∧
    (∃ qids : List String,
      (runLoaderTurn eventAttendeesLoaderBatch [oidA, oidB] sampleDB).2 =
        [FetchCall.findEvents [oidA, oidB], FetchCall.findUsers qids])) :=
  ⟨by decide, by decide, by decide,
   batching_fetch_count_independent_of_n [oidA, oidB] sampleDB
     (by decide) (by decide) (by decide)⟩

/-! ## Pagination lemmas -/

lemma paginateQuery_fields {T : Type} (query modelDocs : List T)
    (filter : T → Bool) (pg : Option PaginationInput) (vp vl : Int)
    (hvp : vp = (if ((pg.bind (fun p => p.page)).getD 1) > 0
      then ((pg.bind (fun p => p.page)).getD 1) else 1))
    (hvl : vl = (if ((pg.bind (fun p => p.limit)).getD 10) > 0
      then ((pg.bind (fun p => p.limit)).getD 10) else 10)) :
    paginateQuery query modelDocs filter pg =
      { edges := (query.drop ((vp - 1) * vl).toNat).take vl.toNat,
        pageInfo :=
          { hasNextPage := decide (vp < Int.ofNat
              ((countDocuments modelDocs filter + vl.toNat - 1) / vl.toNat)),
            hasPreviousPage := decide (vp > 1),
            currentPage := vp,
            totalPages := Int.ofNat
              ((countDocuments modelDocs filter + vl.toNat - 1) / vl.toNat) },
        totalCount := countDocuments modelDocs filter } := by
  subst hvp hvl
  rfl

lemma clamp_pos (raw d : Int) (hd : 0 < d) : 0 < (if raw > 0 then raw else d) := by
  split
  · omega
  · exact hd

/-- Claim C5. `paginateQuery` uses page 1 when `page` is absent or `≤ 0` and
limit 10 when `limit` is absent or `≤ 0` (`cp`, `cl` are those clamped
values), computes `skip = (cp - 1) * cl`, echoes `cp` as `currentPage`, and
the whole envelope equals the one for the explicitly clamped input; in
particular `page = -1, limit = 0` behaves identically to
`page = 1, limit = 10`. -/
theorem paginateQuery_defaults_and_clamps {T : Type} (query modelDocs : List T)
    (filter : T → Bool) (pg : Option PaginationInput) (cp cl : Int)
    (hcp : cp = (if ((pg.bind (fun p => p.page)).getD 1) ≤ 0 then 1
      else ((pg.bind (fun p => p.page)).getD 1)))
    (hcl : cl = (if ((pg.bind (fun p => p.limit)).getD 10) ≤ 0 then 10
      else ((pg.bind (fun p => p.limit)).getD 10))) :
    paginateQuery query modelDocs filter pg =
      paginateQuery query modelDocs filter (some ⟨some cp, some cl⟩) ∧
    (paginateQuery query modelDocs filter pg).pageInfo.currentPage = cp ∧
    (paginateQuery query modelDocs filter pg).edges =
      (query.drop ((cp - 1) * cl).toNat).take cl.toNat ∧
    paginateQuery query modelDocs filter (some ⟨some (-1), some 0⟩) =
      paginateQuery query modelDocs filter (some ⟨some 1, some 10⟩) := by
  have hvp : cp = (if ((pg.bind (fun p => p.page)).getD 1) > 0
      then ((pg.bind (fun p => p.page)).getD 1) else 1) := by
    rw [hcp]; split_ifs <;> omega
  have hvl : cl = (if ((pg.bind (fun p => p.limit)).getD 10) > 0
      then ((pg.bind (fun p => p.limit)).getD 10) else 10) := by
    rw [hcl]; split_ifs <;> omega
  have hcp_pos : 0 < cp := by rw [hvp]; exact clamp_pos _ _ (by omega)
  have hcl_pos : 0 < cl := by rw [hvl]; exact clamp_pos _ _ (by omega)
  refine ⟨?_, ?_, ?_, ?_⟩
  · rw [paginateQuery_fields query modelDocs filter pg cp cl hvp hvl,
        paginateQuery_fields query modelDocs filter (some ⟨some cp, some cl⟩) cp cl
          (by simp [hcp_pos]) (by simp [hcl_pos])]
  · rw [paginateQuery_fields query modelDocs filter pg cp cl hvp hvl]
  · rw [paginateQuery_fields query modelDocs filter pg cp cl hvp hvl]
  · rw [paginateQuery_fields query modelDocs filter (some ⟨some (-1), some 0⟩) 1 10
          (by decide) (by decide),
        paginateQuery_fields query modelDocs filter (some ⟨some 1, some 10⟩) 1 10
          (by decide) (by decide)]

/-- Witness for C5: `page = -5, limit = 0` over a three-element collection
clamps to `page = 1, limit = 10`. -/
theorem paginateQuery_defaults_and_clamps_witness :
    ((1 : Int) = (if (((some (⟨some (-5), some 0⟩ : PaginationInput)).bind
        (fun p => p.page)).getD 1) ≤ 0 then 1
      else (((some (⟨some (-5), some 0⟩ : PaginationInput)).bind
        (fun p => p.page)).getD 1))) ∧
    ((10 : Int) = (if (((some (⟨some (-5), some 0⟩ : PaginationInput)).bind
        (fun p => p.limit)).getD 10) ≤ 0 then 10
      else (((some (⟨some (-5), some 0⟩ : PaginationInput)).bind
        (fun p => p.limit)).getD 10))) ∧
    (paginateQuery [1, 2, 3] [1, 2, 3] (fun _ => true)
        (some ⟨some (-5), some 0⟩) =
      paginateQuery [1, 2, 3] [1, 2, 3] (fun _ => true)
        (some ⟨some 1, some 10⟩) ∧
    (paginateQuery [1, 2, 3] [1, 2, 3] (fun _ => true)
        (some ⟨some (-5), some 0⟩)).pageInfo.currentPage = 1 ∧
    (paginateQuery [1, 2, 3] [1, 2, 3] (fun _ => true)
        (some ⟨some (-5), some 0⟩)).edges =
      (([1, 2, 3] : List Nat).drop ((1 - 1) * 10 : Int).toNat).take (10 : Int).toNat ∧
    paginateQuery [1, 2, 3] [1, 2, 3] (fun _ => true) (some ⟨some (-1), some 0⟩) =
      paginateQuery [1, 2, 3] [1, 2, 3] (fun _ => true) (some ⟨some 1, some 10⟩)) :=
  ⟨by decide, by decide,
   paginateQuery_defaults_and_clamps [1, 2, 3] [1, 2, 3] (fun _ => true)
     (some ⟨some (-5), some 0⟩) 1 10 (by decide) (by decide)⟩

/-- Claim C6. Every envelope returned by `paginateQuery` satisfies:
`totalCount` equals the separate count operation over the filter (not the
windowed fetch's length); `totalPages` is the ceiling of
`totalCount / limit` for the clamped limit `cl` — the least `tp` with
`totalCount ≤ tp * cl`, and `0` when `totalCount = 0`;
`hasNextPage = (currentPage < totalPages)`; and
`hasPreviousPage = (currentPage > 1)`. -/
theorem paginateQuery_envelope_invariants {T : Type} (query modelDocs : List T)
    (filter : T → Bool) (pg : Option PaginationInput) (cl : Int)
    (hcl : cl = (if ((pg.bind (fun p => p.limit)).getD 10) ≤ 0 then 10
      else ((pg.bind (fun p => p.limit)).getD 10))) :
    (paginateQuery query modelDocs filter pg).totalCount =
      countDocuments modelDocs filter ∧
    ((paginateQuery query modelDocs filter pg).totalCount = 0 →
      (paginateQuery query modelDocs filter pg).pageInfo.totalPages = 0) ∧
    (∃ tp : Nat,
      (paginateQuery query modelDocs filter pg).pageInfo.totalPages = Int.ofNat tp ∧
      (paginateQuery query modelDocs filter pg).totalCount ≤ tp * cl.toNat ∧
      (∀ m : Nat,
        (paginateQuery query modelDocs filter pg).totalCount ≤ m * cl.toNat →
        tp ≤ m)) ∧
    (paginateQuery query modelDocs filter pg).pageInfo.hasNextPage =
      decide ((paginateQuery query modelDocs filter pg).pageInfo.currentPage <
        (paginateQuery query modelDocs filter pg).pageInfo.totalPages) ∧
    (paginateQuery query modelDocs filter pg).pageInfo.hasPreviousPage =
      decide (1 < (paginateQuery query modelDocs filter pg).pageInfo.currentPage) := by
  have hvl : cl = (if ((pg.bind (fun p => p.limit)).getD 10) > 0
      then ((pg.bind (fun p => p.limit)).getD 10) else 10) := by
    rw [hcl]; split_ifs <;> omega
  have hcl_pos : 0 < cl := by rw [hvl]; exact clamp_pos _ _ (by omega)
  have hL : 0 < cl.toNat := by omega
  rw [paginateQuery_fields query modelDocs filter pg _ cl rfl hvl]
  refine ⟨rfl, ?_, ?_, rfl, rfl⟩
  · intro h
    have h' : countDocuments modelDocs filter = 0 := h
    show Int.ofNat ((countDocuments modelDocs filter + cl.toNat - 1) / cl.toNat) = 0
    rw [h', Nat.zero_add, Nat.div_eq_of_lt (by omega)]
    rfl
  · refine ⟨(countDocuments modelDocs filter + cl.toNat - 1) / cl.toNat, rfl, ?_, ?_⟩
    · show countDocuments modelDocs filter ≤
        (countDocuments modelDocs filter + cl.toNat - 1) / cl.toNat * cl.toNat
      have h1 : countDocuments modelDocs filter + cl.toNat - 1 <
          (countDocuments modelDocs filter + cl.toNat - 1) / cl.toNat * cl.toNat + cl.toNat :=
        Nat.lt_div_mul_add hL
      omega
    · intro m hm
      have hm2 : countDocuments modelDocs filter ≤ m * cl.toNat := hm
      have hm' : countDocuments modelDocs filter ≤ cl.toNat * m := by
        rw [Nat.mul_comm] at hm2; exact hm2
      exact (Nat.div_le_iff_le_mul_add_pred hL).mpr (by omega)

/-- Witness for C6: `page = 2, limit = 3` over a 7-element collection
(ceiling 7/3 = 3 pages). -/
theorem paginateQuery_envelope_invariants_witness :
    ((3 : Int) = (if (((some (⟨some 2, some 3⟩ : PaginationInput)).bind
        (fun p => p.limit)).getD 10) ≤ 0 then 10
      else (((some (⟨some 2, some 3⟩ : PaginationInput)).bind
        (fun p => p.limit)).getD 10))) ∧
    ((paginateQuery [4, 5, 6] [1, 2, 3, 4, 5, 6, 7] (fun _ => true)
        (some ⟨some 2, some 3⟩)).totalCount =
      countDocuments [1, 2, 3, 4, 5, 6, 7] (fun _ => true) ∧
    ((paginateQuery [4, 5, 6] [1, 2, 3, 4, 5, 6, 7] (fun _ => true)
        (some ⟨some 2, some 3⟩)).totalCount = 0 →
      (paginateQuery [4, 5, 6] [1, 2, 3, 4, 5, 6, 7] (fun _ => true)
        (some ⟨some 2, some 3⟩)).pageInfo.totalPages = 0) ∧
    (∃ tp : Nat,
      (paginateQuery [4, 5, 6] [1, 2, 3, 4, 5, 6, 7] (fun _ => true)
        (some ⟨some 2, some 3⟩)).pageInfo.totalPages = Int.ofNat tp ∧
      (paginateQuery [4, 5, 6] [1, 2, 3, 4, 5, 6, 7] (fun _ => true)
        (some ⟨some 2, some 3⟩)).totalCount ≤ tp * (3 : Int).toNat ∧
      (∀ m : Nat,
        (paginateQuery [4, 5, 6] [1, 2, 3, 4, 5, 6, 7] (fun _ => true)
          (some ⟨some 2, some 3⟩)).totalCount ≤ m * (3 : Int).toNat →
        tp ≤ m)) ∧
    (paginateQuery [4, 5, 6] [1, 2, 3, 4, 5, 6, 7] (fun _ => true)
        (some ⟨some 2, some 3⟩)).pageInfo.hasNextPage =
      decide ((paginateQuery [4, 5, 6] [1, 2, 3, 4, 5, 6, 7] (fun _ => true)
          (some ⟨some 2, some 3⟩)).pageInfo.currentPage <
        (paginateQuery [4, 5, 6] [1, 2, 3, 4, 5, 6, 7] (fun _ => true)
          (some ⟨some 2, some 3⟩)).pageInfo.totalPages) ∧
    (paginateQuery [4, 5, 6] [1, 2, 3, 4, 5, 6, 7] (fun _ => true)
        (some ⟨some 2, some 3⟩)).pageInfo.hasPreviousPage =
      decide (1 < (paginateQuery [4, 5, 6] [1, 2, 3, 4, 5, 6, 7] (fun _ => true)
        (some ⟨some 2, some 3⟩)).pageInfo.currentPage)) :=
  ⟨by decide,
   paginateQuery_envelope_invariants [4, 5, 6] [1, 2, 3, 4, 5, 6, 7]
     (fun _ => true) (some ⟨some 2, some 3⟩) 3 (by decide)⟩

/-- Claim C7, counterexample. "For every collection and every limit larger
than `totalCount`, page 1 holds all items and `totalPages = 1`" fails for
the empty collection: with `totalCount = 0` and `limit = 10 > 0` the code
computes `totalPages = ceil(0 / 10) = 0`, not 1. -/
theorem limit_exceeding_total_counterexample :
    ¬ ((paginateQuery ([] : List Nat) [] (fun _ => true)
        (some ⟨none, some 10⟩)).pageInfo.totalPages = 1) := by
  decide

/-- Claim C7, amended. For every *nonempty* collection and every limit
strictly larger than its `totalCount`, paginating with the page defaulted
yields all items of the collection on page 1 and an envelope with
`totalPages = 1`. -/
theorem limit_exceeding_total_single_page {T : Type} (query modelDocs : List T)
    (filter : T → Bool) (L : Int)
    (hq : query.length = countDocuments modelDocs filter)
    (hpos : 0 < countDocuments modelDocs filter)
    (hlim : (countDocuments modelDocs filter : Int) < L) :
    (paginateQuery query modelDocs filter (some ⟨none, some L⟩)).edges = query ∧
    (paginateQuery query modelDocs filter
      (some ⟨none, some L⟩)).pageInfo.currentPage = 1 ∧
    (paginateQuery query modelDocs filter
      (some ⟨none, some L⟩)).pageInfo.totalPages = 1 := by
  have hLpos : 0 < L := by omega
  have hvp : (1 : Int) = (if (((some (⟨none, some L⟩ : PaginationInput)).bind
      (fun p => p.page)).getD 1) > 0
      then (((some (⟨none, some L⟩ : PaginationInput)).bind
        (fun p => p.page)).getD 1) else 1) := by
    simp
  have hvl : L = (if (((some (⟨none, some L⟩ : PaginationInput)).bind
      (fun p => p.limit)).getD 10) > 0
      then (((some (⟨none, some L⟩ : PaginationInput)).bind
        (fun p => p.limit)).getD 10) else 10) := by
    simp [hLpos]
  have htL : countDocuments modelDocs filter < L.toNat := by omega
  rw [paginateQuery_fields query modelDocs filter (some ⟨none, some L⟩) 1 L hvp hvl]
  refine ⟨?_, rfl, ?_⟩
  · show (query.drop ((1 - 1) * L).toNat).take L.toNat = query
    have h0 : ((1 - 1) * L).toNat = 0 := by
      norm_num
    rw [h0, List.drop_zero]
    exact List.take_of_length_le (by omega)
  · show Int.ofNat ((countDocuments modelDocs filter + L.toNat - 1) / L.toNat) = 1
    have hdiv : (countDocuments modelDocs filter + L.toNat - 1) / L.toNat = 1 :=
      Nat.div_eq_of_lt_le (by omega) (by omega)
    rw [hdiv]
    rfl

/-- Witness for the amended C7: a two-element collection with limit 10. -/
theorem limit_exceeding_total_single_page_witness :
    (([1, 2] : List Nat).length = countDocuments [1, 2] (fun _ => true)) ∧
    (0 < countDocuments [1, 2] (fun _ => true)) ∧
    ((countDocuments [1, 2] (fun _ => true) : Int) < 10) ∧
    ((paginateQuery [1, 2] [1, 2] (fun _ => true)
        (some ⟨none, some 10⟩)).edges = [1, 2] ∧
    (paginateQuery [1, 2] [1, 2] (fun _ => true)
        (some ⟨none, some 10⟩)).pageInfo.currentPage = 1 ∧
    (paginateQuery [1, 2] [1, 2] (fun _ => true)
        (some ⟨none, some 10⟩)).pageInfo.totalPages = 1) :=
  ⟨by decide, by decide, by decide,
   limit_exceeding_total_single_page [1, 2] [1, 2] (fun _ => true) 10
     (by decide) (by decide) (by decide)⟩

/-- Claim C8. For every resolver wrapped by `requireAuth` and every
invocation: with no caller identity in the context the wrapper raises the
GraphQL error `Authentication required` with code `UNAUTHENTICATED` and the
wrapped resolver is never invoked (the outcome is the same for every
resolver); with a caller identity present the wrapper passes all four
arguments unchanged to the wrapped resolver and returns or propagates its
result or failure verbatim. -/
theorem requireAuth_gate {T U V W R : Type}
    (resolver : T → U → Context V → W → Except GraphQLError R)
    (parent : T) (args : U) (context : Context V) (info : W) :
    (context.user = none →
      requireAuth resolver parent args context info =
        .error ⟨"Authentication required", "UNAUTHENTICATED"⟩ ∧
      (∀ resolver2 : T → U → Context V → W → Except GraphQLError R,
        requireAuth resolver2 parent args context info =
          requireAuth resolver parent args context info)) ∧
    (∀ p : UserPayload, context.user = some p →
      requireAuth resolver parent args context info =
        resolver parent args context info) := by
  constructor
  · intro h
    constructor
    · simp [requireAuth, h]
    · intro resolver2
      simp [requireAuth, h]
  · intro p h
    simp [requireAuth, h]

/-- Witness for C8: an anonymous context is rejected with the
`UNAUTHENTICATED` error while an authenticated context gets the wrapped
resolver's result. -/
theorem requireAuth_gate_witness :
    requireAuth sampleResolver 1 2 sampleCtxAnon 3 =
      .error ⟨"Authentication required", "UNAUTHENTICATED"⟩ ∧
    requireAuth sampleResolver 1 2 sampleCtxAuth 3 = .ok 7 :=
  ⟨((requireAuth_gate sampleResolver 1 2 sampleCtxAnon 3).1 rfl).1,
   by rw [(requireAuth_gate sampleResolver 1 2 sampleCtxAuth 3).2 samplePayload rfl]
      rfl⟩

/-- Claim C9. Token verification round-trips issuance: verifying a freshly
issued token (with or without the `Bearer` prefix, before its 1-day expiry)
recovers exactly the `{id, email}` payload; empty input, a malformed token,
a wrong-secret signature, and an expired token all verify to "no identity"
(`none`) and never throw. -/
theorem token_roundtrip (p : UserPayload) (secret s2 : String) (now t : Nat) :
    (t < now + 86400 →
      getUserFromToken (.bearer (generateToken p secret now)) secret t = some p ∧
      getUserFromToken (.plain (generateToken p secret now)) secret t = some p) ∧
    getUserFromToken .emptyHeader secret t = none ∧
    (∀ s : String, getUserFromToken (.bearer (.malformed s)) secret t = none) ∧
    (s2 ≠ secret → ∀ e : Nat,
      getUserFromToken (.bearer (.signed p s2 e)) secret t = none) ∧
    (now + 86400 ≤ t →
      getUserFromToken (.bearer (generateToken p secret now)) secret t = none) := by
  refine ⟨?_, rfl, ?_, ?_, ?_⟩
  · intro h
    constructor <;>
      simp [getUserFromToken, generateToken, jwtVerify, Nat.not_le.mpr h]
  · intro s
    rfl
  · intro hs e
    simp [getUserFromToken, jwtVerify, hs]
  · intro h
    simp [getUserFromToken, generateToken, jwtVerify, h]

/-- Witness for C9: a token for `{id: "1", email: "a@b.com"}` signed with
`"secret"` at time 0, verified at times 100 (valid) and 90000 (expired),
plus garbage, wrong-secret and empty inputs. -/
theorem token_roundtrip_witness :
    getUserFromToken (.bearer (generateToken samplePayload sampleSecret 0))
      sampleSecret 100 = some samplePayload ∧
    getUserFromToken (.plain (generateToken samplePayload sampleSecret 0))
      sampleSecret 100 = some samplePayload ∧
    getUserFromToken .emptyHeader sampleSecret 100 = none ∧
    getUserFromToken (.bearer (.malformed garbageString)) sampleSecret 100 = none ∧
    getUserFromToken (.bearer (.signed samplePayload wrongSecret 99999))
      sampleSecret 100 = none ∧
    getUserFromToken (.bearer (generateToken samplePayload sampleSecret 0))
      sampleSecret 90000 = none :=
  ⟨((token_roundtrip samplePayload sampleSecret wrongSecret 0 100).1 (by decide)).1,
   ((token_roundtrip samplePayload sampleSecret wrongSecret 0 100).1 (by decide)).2,
   (token_roundtrip samplePayload sampleSecret wrongSecret 0 100).2.1,
   (token_roundtrip samplePayload sampleSecret wrongSecret 0 100).2.2.1 garbageString,
   (token_roundtrip samplePayload sampleSecret wrongSecret 0 100).2.2.2.1
     (by decide) 99999,
   (token_roundtrip samplePayload sampleSecret wrongSecret 0 90000).2.2.2.2
     (by decide)⟩

/-- Claim C10. For every loader, a batch whose requested key list contains a
string that is not a well-formed ObjectId throws during the key-conversion
step, before any persistence fetch is issued: the whole batch errors (every
pending load of that turn rejects, including those for well-formed keys)
and the fetch log is empty. -/
theorem malformed_key_rejects_whole_batch (keys : List String) (db : DB)
    (h : ∃ k ∈ keys, isValidObjectId k = false) :
    ((∃ e, (runLoaderTurn userLoaderBatch keys db).1 = .error e) ∧
      (runLoaderTurn userLoaderBatch keys db).2 = []) ∧
    ((∃ e, (runLoaderTurn eventLoaderBatch keys db).1 = .error e) ∧
      (runLoaderTurn eventLoaderBatch keys db).2 = []) ∧
    ((∃ e, (runLoaderTurn userEventsLoaderBatch keys db).1 = .error e) ∧
      (runLoaderTurn userEventsLoaderBatch keys db).2 = []) ∧
    ((∃ e, (runLoaderTurn userAttendingEventsLoaderBatch keys db).1 = .error e) ∧
      (runLoaderTurn userAttendingEventsLoaderBatch keys db).2 = []) ∧
    ((∃ e, (runLoaderTurn eventAttendeesLoaderBatch keys db).1 = .error e) ∧
      (runLoaderTurn eventAttendeesLoaderBatch keys db).2 = []) := by
  obtain ⟨e, he⟩ := mapToObjectIds_error_of_invalid keys h
  refine ⟨⟨⟨e, ?_⟩, ?_⟩, ⟨⟨e, ?_⟩, ?_⟩, ⟨⟨e, ?_⟩, ?_⟩, ⟨⟨e, ?_⟩, ?_⟩, ⟨⟨e, ?_⟩, ?_⟩⟩ <;>
    simp [runLoaderTurn, userLoaderBatch, eventLoaderBatch, userEventsLoaderBatch,
      userAttendingEventsLoaderBatch, eventAttendeesLoaderBatch, he]

/-- Witness for C10: the batch `[oidA, badKey]` — a well-formed key followed
by a malformed one — rejects as a whole with no fetch issued, on all five
loaders. -/
theorem malformed_key_rejects_whole_batch_witness :
    (∃ k ∈ ([oidA, badKey] : List String), isValidObjectId k = false) ∧
    (((∃ e, (runLoaderTurn userLoaderBatch [oidA, badKey] sampleDB).1 = .error e) ∧
      (runLoaderTurn userLoaderBatch [oidA, badKey] sampleDB).2 = []) ∧
    ((∃ e, (runLoaderTurn eventLoaderBatch [oidA, badKey] sampleDB).1 = .error e) ∧
      (runLoaderTurn eventLoaderBatch [oidA, badKey] sampleDB).2 = []) ∧
    ((∃ e, (runLoaderTurn userEventsLoaderBatch [oidA, badKey] sampleDB).1 = .error e) ∧
      (runLoaderTurn userEventsLoaderBatch [oidA, badKey] sampleDB).2 = []) ∧
    ((∃ e, (runLoaderTurn userAttendingEventsLoaderBatch [oidA, badKey] sampleDB).1 =
        .error e) ∧
      (runLoaderTurn userAttendingEventsLoaderBatch [oidA, badKey] sampleDB).2 = []) ∧
    ((∃ e, (runLoaderTurn eventAttendeesLoaderBatch [oidA, badKey] sampleDB).1 =
        .error e) ∧
      (runLoaderTurn eventAttendeesLoaderBatch [oidA, badKey] sampleDB).2 = [])) :=
  ⟨⟨badKey, by decide, by decide⟩,
   malformed_key_rejects_whole_batch [oidA, badKey] sampleDB
     ⟨badKey, by decide, by decide⟩⟩

end StudyBE
